import Mathlib

/-!
# join-app: object storage gateway and upload/download handlers

A shallow embedding of

* `pkg/storage/minio/minio.go` (the fluent gateway over the S3-compatible store),
* `transport/rest/handler/modules.go` (`CreateModules`, `ParseFileUpload`,
  `DownloadFromStorage`),
* `adapter/controller/modules.go` and `shared/util/jwt.go` (`UserData.GetUserData`,
  `SplitBearer`).

Go code with effects is written in a small state monad `Go`: the state is the
local file system (the set of existing paths) together with the trace of every
external call made so far.  What the outside world answers (the object store,
the operating system, the HTTP client, the request) is an explicit parameter.
-/

namespace JoinApp

/-! ## Values shared by all packages -/

/-- A non-nil Go `error`, identified by its message; a Go `error` that may be nil
is an `Option GoError`. -/
abbrev GoError := String

/-- A `context.Context` value (a nil context is `none : Option Context`). -/
abbrev Context := String

/-- A `time.Duration`: a signed count of nanoseconds. -/
abbrev Duration := Int

/-- Go `time.Second`. -/
def Second : Duration := 1000000000

/-- A `*url.URL`, identified by its string form (a nil pointer is `none`). -/
abbrev URL := String

/-- A `url.Values`: request parameters, in order of insertion. -/
abbrev Values := List (String × String)

/-- The `*minio.Client` built by `minio.New(endpoint, &minio.Options{Creds, Secure})`. -/
structure Client where
  Endpoint : String
  AccessKey : String
  SecretKey : String
  Token : String
  Secure : Bool
deriving DecidableEq, Repr

/-- One entry of the channel returned by `Client.ListObjects`. -/
structure ObjectInfo where
  Key : String
  Size : Nat
  ContentType : String
  Err : Option GoError
deriving DecidableEq, Repr

/-- One entry of the channel returned by `Client.ListIncompleteUploads`. -/
structure ObjectMultipartInfo where
  Key : String
  UploadID : String
  Size : Nat
  Err : Option GoError
deriving DecidableEq, Repr

/-- A value stored in a `map[string]interface{}`. -/
inductive Iface where
  | object : ObjectInfo → Iface
  | multipart : ObjectMultipartInfo → Iface
deriving DecidableEq, Repr

/-- A Go `map[string]interface{}`: `none` is the nil map (the zero value of a
map-typed variable), `some kvs` an allocated map with its bindings. -/
abbrev GoMap := Option (List (String × Iface))

/-- The builder calls of package `response` (outside `src/`); a response value is
the history of builder calls made on it since `NewJSONResponse()`. -/
inductive RespCall where
  | SetError : String → RespCall
  | SetMessage : String → RespCall
  | SetData : String → RespCall
  | APIStatusCreated : RespCall
  | APIStatusBadRequest : RespCall
  | APIStatusErrorUnknown : RespCall
  | APIStatusNotFound : RespCall
deriving DecidableEq, Repr

abbrev JSONResponse := List RespCall

/-- Go `response.NewJSONResponse()`. -/
def NewJSONResponse : JSONResponse := []

def ErrMethodNotAllowed : String := "ErrMethodNotAllowed"
def ErrBadRequest : String := "ErrBadRequest"
def ErrInternalServerError : String := "ErrInternalServerError"

/-- Go `util.UserData`. -/
structure UserData where
  RoleUUID : String
  UserUUID : String
  Token : String
deriving DecidableEq, Repr

/-- Go `service.CreateModulesReq`; `ModuleMaterial` keeps whatever
`service.ParseRequestModuleMaterial` (outside `src/`) returned. -/
structure CreateModulesReq where
  Name : String
  Description : String
  ModuleMaterial : List String
  File : String
deriving DecidableEq, Repr

/-- Every call that leaves the handler or the gateway, in the order it is made. -/
inductive Event where
  /-- `r.ParseMultipartForm(maxMemory)` -/
  | ParseMultipartForm (maxMemory : Nat)
  /-- `r.FormFile(key)` -/
  | FormFile (key : String)
  /-- `os.Getwd()` -/
  | Getwd
  /-- `os.OpenFile(path, os.O_WRONLY|os.O_CREATE, 0666)` -/
  | OpenFile (path : String)
  /-- `io.Copy(targetFile, uploadedFile)` into the file at `path` -/
  | Copy (path : String)
  /-- deferred `uploadedFile.Close()` -/
  | CloseUploaded
  /-- deferred `targetFile.Close()` -/
  | CloseTarget (path : String)
  /-- `os.Remove(path)` -/
  | Remove (path : String)
  /-- `fmt.Println(...)` -/
  | Println (msg : String)
  /-- `log.Printf(...)` -/
  | LogPrintf (msg : String)
  /-- `minio.New(...)` -/
  | MinioNew (c : Client)
  /-- `Client.MakeBucket(ctx, bucket, MakeBucketOptions{Region})` -/
  | StoreMakeBucket (ctx : Option Context) (bucket region : String)
  /-- `Client.FPutObject(ctx, bucket, object, filePath, PutObjectOptions{ContentType})` -/
  | StoreFPutObject (ctx : Option Context) (bucket object filePath contentType : String)
  /-- `Client.BucketExists(ctx, bucket)` -/
  | StoreBucketExists (ctx : Option Context) (bucket : String)
  /-- `Client.StatObject(ctx, bucket, object, StatObjectOptions{})` -/
  | StoreStatObject (ctx : Option Context) (bucket object : String)
  /-- `Client.ListObjects(ctx, bucket, ListObjectsOptions{Recursive: true, Prefix: ""})` -/
  | StoreListObjects (ctx : Option Context) (bucket : String)
  /-- `Client.ListIncompleteUploads(context.Background(), bucket, objectPrefix, isRecursive)` -/
  | StoreListIncompleteUploads (bucket pfx : String) (isRecursive : Bool)
  /-- `Client.PresignedGetObject(ctx, bucket, object, expiry, reqParams)` -/
  | StorePresignedGetObject (ctx : Option Context) (bucket object : String)
      (expiry : Duration) (reqParams : Values)
  /-- `http.Get(url)` -/
  | HttpGet (url : String)
  /-- `ioutil.ReadAll(resp.Body)` -/
  | ReadAll
  /-- deferred `resp.Body.Close()` -/
  | CloseBody
  /-- `res.….Send(w)` with the builder history of `res` -/
  | Send (res : JSONResponse)
  /-- `w.WriteHeader(code)` -/
  | WriteHeader (code : Nat)
  /-- `w.Header().Set(key, value)` -/
  | HeaderSet (key value : String)
  /-- `w.Write(data)` -/
  | Write (data : List Nat)
  /-- `modulesSvc.CreateModules(ctx, req, userData)` -/
  | SvcCreateModules (req : CreateModulesReq) (userData : UserData)
deriving DecidableEq, Repr

/-- The state threaded through the code: which local paths exist, and the calls
made so far (oldest first). -/
structure World where
  fs : List String
  trace : List Event
deriving DecidableEq, Repr

/-- How a Go function call ends. -/
inductive Result (α : Type) where
  /-- the function returned -/
  | ok : α → World → Result α
  /-- a run-time panic unwinds the goroutine -/
  | panic : String → World → Result α
  /-- `log.Fatalln`: the process exits -/
  | fatal : String → World → Result α
deriving DecidableEq, Repr

/-- Effectful Go code. -/
def Go (α : Type) : Type := World → Result α

namespace Go

def ret {α : Type} (a : α) : Go α := fun w => Result.ok a w

def andThen {α β : Type} (x : Go α) (f : α → Go β) : Go β := fun w =>
  match x w with
  | Result.ok a w1 => f a w1
  | Result.panic msg w1 => Result.panic msg w1
  | Result.fatal msg w1 => Result.fatal msg w1

instance : Monad Go where
  pure := ret
  bind := andThen

/-- Record an external call. -/
def emit (e : Event) : Go Unit := fun w =>
  Result.ok () { w with trace := w.trace ++ [e] }

/-- A run-time panic. -/
def throwPanic {α : Type} (msg : String) : Go α := fun w => Result.panic msg w

/-- Go `log.Fatalln(msg)`. -/
def logFatalln {α : Type} (msg : String) : Go α := fun w => Result.fatal msg w

/-- The file at `path` exists from now on. -/
def createPath (path : String) : Go Unit := fun w =>
  Result.ok () { w with fs := if path ∈ w.fs then w.fs else w.fs ++ [path] }

/-- The file at `path` no longer exists. -/
def removePath (path : String) : Go Unit := fun w =>
  Result.ok () { w with fs := w.fs.filter (fun p => p != path) }

end Go

/-- The world after the call, however it ended. -/
def Result.world {α : Type} : Result α → World
  | Result.ok _ w => w
  | Result.panic _ w => w
  | Result.fatal _ w => w

/-- The returned value, when the call returned. -/
def Result.value? {α : Type} : Result α → Option α
  | Result.ok a _ => some a
  | Result.panic _ _ => none
  | Result.fatal _ _ => none

/-! ## Package `config` -/

/-- Go `config.GlobalCfg.Storage.Minio`. -/
structure MinioCfg where
  Endpoint : String
  Bucket : String
  AccessKey : String
  SecretKey : String
  Region : String
  Secure : Bool
  Token : String
deriving DecidableEq, Repr

/-! ## Package `minio` -/

/-- What the object store answers to each call of the `minio-go` client that
reaches it.  What the client does before it contacts the store is written out
where the code modelled here depends on it (`clientBucketExists`). -/
structure Store where
  /-- the error of `minio.New` -/
  New : Client → Option GoError
  MakeBucket : Client → Option Context → String → String → Option GoError
  FPutObject : Client → Option Context → String → String → String → String → Option GoError
  BucketExists : Client → Option Context → String → Bool × Option GoError
  StatObject : Client → Option Context → String → String → ObjectInfo × Option GoError
  ListObjects : Client → Option Context → String → List ObjectInfo
  ListIncompleteUploads : Client → String → String → Bool → List ObjectMultipartInfo
  PresignedGetObject : Client → Option Context → String → String → Duration → Values →
    Option URL × Option GoError
  /-- the error of `s3utils.CheckValidBucketName(bucketName)`, the input validation
  of the client -/
  CheckValidBucketName : String → Option GoError

/-- Go `MinioImpl`. -/
structure MinioImpl where
  Client : Client
  Bucket : String
  Location : String
  ctx : Option Context
deriving DecidableEq, Repr

namespace Minio

open Go

/-- The client of `minio.New(cfg.Endpoint, &minio.Options{Creds: credentials.NewStaticV4(
cfg.AccessKey, cfg.SecretKey, cfg.Token), Secure: cfg.Secure})`. -/
def clientOf (cfg : MinioCfg) : Client :=
  { Endpoint := cfg.Endpoint, AccessKey := cfg.AccessKey, SecretKey := cfg.SecretKey,
    Token := cfg.Token, Secure := cfg.Secure }

/-- Go `NewMinio`.  (The package variable `MinioClient` it also assigns is never
read by the code modelled here.) -/
def NewMinio (cfg : MinioCfg) (store : Store) : Go MinioImpl := do
  let c : Client := clientOf cfg
  emit (Event.MinioNew c)
  match store.New c with
  | some err => logFatalln err
  | none => pure { Client := c, Bucket := "", Location := "", ctx := none }

/-- Go `(*MinioImpl).SetBucket`. -/
def SetBucket (m : MinioImpl) (bucketName : String) : MinioImpl :=
  { m with Bucket := bucketName }

/-- Go `(*MinioImpl).SetLocation`. -/
def SetLocation (m : MinioImpl) (location : String) : MinioImpl :=
  { m with Location := location }

/-- Go `(*MinioImpl).WithContext`. -/
def WithContext (m : MinioImpl) (ctx : Option Context) : MinioImpl :=
  { m with ctx := ctx }

/-- Go `(*MinioImpl).MakeBucket`. -/
def MakeBucket (store : Store) (m : MinioImpl) : Go MinioImpl := do
  emit (Event.StoreMakeBucket m.ctx m.Bucket m.Location)
  match store.MakeBucket m.Client m.ctx m.Bucket m.Location with
  | some err =>
    emit (Event.Println err)
    pure m
  | none =>
    emit (Event.LogPrintf ("Successfully created " ++ m.Bucket ++ "\n"))
    pure m

/-- Go `(*MinioImpl).UploadObject`. -/
def UploadObject (store : Store) (m : MinioImpl) (objectName filePath contentType : String) :
    Go (Bool × Option GoError) := do
  emit (Event.StoreFPutObject m.ctx m.Bucket objectName filePath contentType)
  match store.FPutObject m.Client m.ctx m.Bucket objectName filePath contentType with
  | some err => pure (false, some err)
  | none =>
    -- fmt.Println("Successfully uploaded / of size", objectName, info); `info` is not rendered
    emit (Event.Println ("Successfully uploaded / of size " ++ objectName))
    pure (true, none)

/-- The call `m.Client.BucketExists(ctx, bucketName)` of the `minio-go` client: an
invalid bucket name is answered with its error at once; otherwise the client
derives the context of the request from `ctx` with `context.WithCancel`, which
panics on a nil context; otherwise the store answers. -/
def clientBucketExists (store : Store) (c : Client) (ctx : Option Context)
    (bucketName : String) : Go (Bool × Option GoError) :=
  match store.CheckValidBucketName bucketName with
  | some err => pure (false, some err)
  | none =>
    match ctx with
    | none => throwPanic "cannot create context from nil parent"
    | some _ => pure (store.BucketExists c ctx bucketName)

/-- Go `(*MinioImpl).BucketExist`. -/
def BucketExist (store : Store) (m : MinioImpl) : Go Bool := do
  emit (Event.StoreBucketExists m.ctx m.Bucket)
  let (exist, err) ← clientBucketExists store m.Client m.ctx m.Bucket
  if err.isSome && !exist then
    pure false
  else
    pure true

/-- Go `(*MinioImpl).StatObject`. -/
def StatObject (store : Store) (m : MinioImpl) (objectName : String) : Go ObjectInfo := do
  emit (Event.StoreStatObject m.ctx m.Bucket objectName)
  let (objInfo, _) := store.StatObject m.Client m.ctx m.Bucket objectName
  pure objInfo

/-- Go `response[key] = value`: assignment to an entry of a map. -/
def mapAssign (response : GoMap) (key : String) (value : Iface) : Go GoMap :=
  match response with
  | none => throwPanic "assignment to entry in nil map"
  | some kvs => pure (some ((kvs.filter (fun kv => kv.1 != key)) ++ [(key, value)]))

/-- The `for object := range objectSource` loop of `ListObjects`. -/
def ListObjects.loop : List ObjectInfo → GoMap → Go GoMap
  | [], response => pure response
  | object :: rest, response =>
    match object.Err with
    | some _ => pure response
    | none => do
      let response1 ← mapAssign response "listObjects" (Iface.object object)
      ListObjects.loop rest response1

/-- Go `(*MinioImpl).ListObjects`; `response` is the named result, nil on entry. -/
def ListObjects (store : Store) (m : MinioImpl) : Go GoMap := do
  let response : GoMap := none
  match m.ctx with
  | none => throwPanic "cannot create context from nil parent"
  | some _ =>
    emit (Event.StoreListObjects m.ctx m.Bucket)
    ListObjects.loop (store.ListObjects m.Client m.ctx m.Bucket) response

/-- The `for multiPartObject := range multiPartObjectUpload` loop. -/
def ListIncompleteUploads.loop : List ObjectMultipartInfo → GoMap → Go GoMap
  | [], response => pure response
  | multiPartObject :: rest, response =>
    match multiPartObject.Err with
    | some _ => pure response
    | none => do
      let response1 ← mapAssign response "ListInComplete" (Iface.multipart multiPartObject)
      ListIncompleteUploads.loop rest response1

/-- Go `(*MinioImpl).ListIncompleteUploads`; `response` is the named result, nil
on entry. -/
def ListIncompleteUploads (store : Store) (m : MinioImpl) (pfx : String) (isRecursive : Bool) :
    Go GoMap := do
  let response : GoMap := none
  emit (Event.StoreListIncompleteUploads m.Bucket pfx isRecursive)
  ListIncompleteUploads.loop (store.ListIncompleteUploads m.Client m.Bucket pfx isRecursive)
    response

/-- Go `(*MinioImpl).SignUrl`. -/
def SignUrl (store : Store) (m : MinioImpl) (objectName : String) : Go (Option URL) := do
  let reqParams : Values := []
  emit (Event.StorePresignedGetObject m.ctx m.Bucket objectName (1000 * Second) reqParams)
  let (presignedURL, err) :=
    store.PresignedGetObject m.Client m.ctx m.Bucket objectName (1000 * Second) reqParams
  match err with
  | some _ => pure presignedURL
  | none => pure presignedURL

end Minio

/-! ## Package `util` -/

/-- A value of a JWT claim: a string, or anything else. -/
inductive ClaimValue where
  | str : String → ClaimValue
  | other : ClaimValue
deriving DecidableEq, Repr

/-- A `*jwt.Token`; `Claims` is `some` exactly when the claims are a `jwt.MapClaims`. -/
structure JwtToken where
  Claims : Option (List (String × ClaimValue))
deriving DecidableEq, Repr

/-- What the handlers read from a `*http.Request`. -/
structure Request where
  Method : String
  /-- `r.Context()` -/
  ctx : Context
  /-- `r.FormValue(key)` -/
  FormValue : String → String
  /-- the error of `r.ParseMultipartForm(maxMemory)` -/
  ParseMultipartForm : Nat → Option GoError
  /-- `r.FormFile(key)`: the `Filename` of the file header, or the error -/
  FormFile : String → Except GoError String
  /-- `r.URL.Query().Get(key)` -/
  Query : String → String
  /-- `r.Context().Value("user_data")` when it is a `*jwt.Token` -/
  user_data : Option JwtToken

namespace Util

open Go

/-- Go `(UserData).GetUserData`. -/
def GetUserData (u : UserData) (r : Request) : Go UserData := do
  match r.user_data with
  | none => throwPanic "interface conversion: interface is not *jwt.Token"
  | some tokenClaims =>
    let claims ← (match tokenClaims.Claims with
      | some claims => pure claims
      | none => do
        emit (Event.Println "Invalid claims type")
        pure [])
    let claimData := claims
    match claimData.lookup "role_uuid" with
    | some (ClaimValue.str role) =>
      match claimData.lookup "user_uuid" with
      | some (ClaimValue.str user) => pure { u with RoleUUID := role, UserUUID := user }
      | _ => throwPanic "interface conversion: interface is not string"
    | _ => throwPanic "interface conversion: interface is not string"

end Util

/-! ## Package `controller` -/

namespace Controller

open Go

/-- Go `(*ModulesControllerImpl).CreateModules`: hands over to the modules service. -/
def CreateModules (modulesSvc : Context → CreateModulesReq → UserData → Option GoError)
    (ctx : Context) (req : CreateModulesReq) (userData : UserData) : Go (Option GoError) := do
  emit (Event.SvcCreateModules req userData)
  pure (modulesSvc ctx req userData)

end Controller

/-! ## Package `handler` -/

/-- What the operating system answers. -/
structure OS where
  /-- `os.Getwd()` -/
  Getwd : Except GoError String
  /-- `filepath.Join(dir, folder, filename)` -/
  Join : String → String → String → String
  /-- the error of `os.OpenFile(path, os.O_WRONLY|os.O_CREATE, 0666)` -/
  OpenFile : String → Option GoError
  /-- the error of `io.Copy(targetFile, uploadedFile)`, by the path of the target -/
  Copy : String → Option GoError
  /-- the error of `os.Remove(path)` -/
  Remove : String → Option GoError

/-- A `*http.Response`. -/
structure HTTPResponse where
  StatusCode : Nat
  Header : List (String × String)
  /-- what `ioutil.ReadAll(resp.Body)` returns -/
  ReadAll : List Nat × Option GoError
deriving DecidableEq, Repr

/-- Everything outside the handler. -/
structure Env where
  /-- `config.GlobalCfg.Storage.Minio` -/
  cfg : MinioCfg
  store : Store
  os : OS
  /-- `util.GetFileContentType(targetFile)` (outside `src/`), by the path of the file -/
  GetFileContentType : String → String
  /-- `service.ParseRequestModuleMaterial` (outside `src/`) -/
  ParseRequestModuleMaterial : String → List String
  /-- `http.Get(url)` -/
  httpGet : String → Option HTTPResponse × Option GoError
  /-- the modules use case behind the controller -/
  modulesSvc : Context → CreateModulesReq → UserData → Option GoError

namespace Handler

open Go Minio

/-- Go `http.MethodPost`. -/
def MethodPost : String := "POST"

/-- Go `http.StatusOK`. -/
def StatusOK : Nat := 200

/-- Go `(*HandlerImpl).ParseFileUpload`.  The deferred `Close` calls run, last
registered first, on every return after their registration. -/
def ParseFileUpload (env : Env) (r : Request) (keyFormFile folder : String) :
    Go (String × Option GoError) := do
  emit (Event.ParseMultipartForm 1024)
  match r.ParseMultipartForm 1024 with
  | some err => pure ("", some err)
  | none =>
    emit (Event.FormFile keyFormFile)
    match r.FormFile keyFormFile with
    | Except.error err => pure ("", some err)
    | Except.ok handlerFilename =>
      emit Event.Getwd
      match env.os.Getwd with
      | Except.error err =>
        emit Event.CloseUploaded
        pure ("", some err)
      | Except.ok dir =>
        let filename := handlerFilename
        let fileLocation := env.os.Join dir folder filename
        emit (Event.OpenFile fileLocation)
        match env.os.OpenFile fileLocation with
        | some err =>
          emit Event.CloseUploaded
          pure ("", some err)
        | none =>
          createPath fileLocation
          emit (Event.Copy fileLocation)
          match env.os.Copy fileLocation with
          | some err =>
            emit (Event.CloseTarget fileLocation)
            emit Event.CloseUploaded
            pure ("", some err)
          | none =>
            -- upload file to minio storage
            let pathFile := "modules/files/" ++ filename
            let m0 ← NewMinio env.cfg env.store
            let m1 ← MakeBucket env.store (SetBucket (WithContext m0 (some r.ctx)) env.cfg.Bucket)
            let (_, err) ← UploadObject env.store m1 ("modules/files/" ++ filename) fileLocation
              (env.GetFileContentType fileLocation)
            (match err with
              | some e => emit (Event.Println ("upload to minio error: " ++ e))
              | none => pure ())
            -- remove file on host
            emit (Event.Remove fileLocation)
            let err := env.os.Remove fileLocation
            (match err with
              | some e => emit (Event.Println e)
              | none => removePath fileLocation)
            emit (Event.CloseTarget fileLocation)
            emit Event.CloseUploaded
            pure (pathFile, err)

/-- Go `(*HandlerImpl).CreateModules`. -/
def CreateModules (env : Env) (r : Request) : Go Unit := do
  let res := NewJSONResponse
  if r.Method != MethodPost then
    emit (Event.Send (res ++ [RespCall.SetError ErrMethodNotAllowed]))
  else
    let req : CreateModulesReq :=
      { Name := r.FormValue "name", Description := r.FormValue "description",
        ModuleMaterial := env.ParseRequestModuleMaterial (r.FormValue "module_materials"),
        File := "" }
    let (filename, err) ← ParseFileUpload env r "file" "storage"
    let req := { req with File := filename }
    match err with
    | some _ => emit (Event.Send (res ++ [RespCall.SetError ErrBadRequest]))
    | none =>
      let userData ← Util.GetUserData { RoleUUID := "", UserUUID := "", Token := "" } r
      let err ← Controller.CreateModules env.modulesSvc r.ctx req userData
      match err with
      | some e =>
        emit (Event.Send (res ++ [RespCall.SetError ErrInternalServerError, RespCall.SetMessage e]))
      | none => emit (Event.Send (res ++ [RespCall.APIStatusCreated]))

/-- Go `strings.Split(s, sep)` for a separator of one ASCII character, on the
characters of `s`. -/
def splitChars (sep : Char) : List Char → List (List Char)
  | [] => [[]]
  | c :: cs =>
    if c = sep then [] :: splitChars sep cs
    else
      match splitChars sep cs with
      | [] => [[c]]
      | p :: ps => (c :: p) :: ps

/-- Go `strings.Split(s, ".")`. -/
def stringsSplitDot (s : String) : List String :=
  (splitChars '.' s.data).map String.mk

/-- The `extenstion` computed at the head of `DownloadFromStorage`. -/
def extenstion (objectName : String) : String :=
  let objectNames := stringsSplitDot objectName
  if objectNames.length > 1 then objectNames.getLastD "" else ""

/-- Go `fmt.Sprint(preSign)` for a `*url.URL`. -/
def fmtSprint : Option URL → String
  | none => "<nil>"
  | some u => u

/-- Go `(*HandlerImpl).DownloadFromStorage`. -/
def DownloadFromStorage (env : Env) (r : Request) : Go Unit := do
  let res := NewJSONResponse
  let objectName := r.Query "object_name"
  let res ← (if objectName = "" then do
      let res1 := res ++ [RespCall.APIStatusBadRequest,
        RespCall.SetMessage "param object_name is required"]
      emit (Event.Send res1)
      pure res1
    else pure res)
  let ext := extenstion objectName
  let m0 ← NewMinio env.cfg env.store
  let bucketExist ← BucketExist env.store (SetBucket m0 env.cfg.Bucket)
  if bucketExist then
    let m1 ← NewMinio env.cfg env.store
    let preSign ← SignUrl env.store (SetBucket (WithContext m1 (some r.ctx)) env.cfg.Bucket)
      objectName
    emit (Event.HttpGet (fmtSprint preSign))
    let (resp, err) := env.httpGet (fmtSprint preSign)
    let res ← (match err with
      | some _ => do
        emit (Event.Send (res ++ [RespCall.APIStatusErrorUnknown]))
        pure (res ++ [RespCall.APIStatusErrorUnknown])
      | none => pure res)
    match resp with
    | none => throwPanic "invalid memory address or nil pointer dereference"
    | some resp =>
      emit Event.ReadAll
      let (data, err) := resp.ReadAll
      (match err with
        | some _ => emit (Event.Send (res ++ [RespCall.APIStatusErrorUnknown]))
        | none => pure ())
      emit (Event.WriteHeader StatusOK)
      -- the two headers are set after `WriteHeader`, where `net/http` no longer sends them
      emit (Event.HeaderSet "Content-Type" ("image/" ++ ext))
      emit (Event.HeaderSet "Content-Length" (toString data.length))
      emit (Event.Write data)
      emit Event.CloseBody
  else
    emit (Event.Send (res ++ [RespCall.APIStatusNotFound, RespCall.SetMessage "Bucket not found"]))

end Handler

/-! ## Package `util`: `SplitBearer`

The pattern of `SplitBearer` is written in the syntax of Go `regexp`; it is kept
here as a syntax tree and matched with derivatives.  Strings are taken as
sequences of characters (valid UTF-8). -/

/-- The part of the `regexp` syntax that the pattern of `SplitBearer` uses. -/
inductive Regex where
  /-- matches nothing (only arises as a derivative) -/
  | none : Regex
  /-- the empty string -/
  | eps : Regex
  /-- one character of a class: a literal, a bracket expression, or the dot -/
  | cls : (Char → Bool) → Regex
  /-- `xy` -/
  | seq : Regex → Regex → Regex
  /-- `x|y` -/
  | alt : Regex → Regex → Regex
  /-- the repetition `x*` -/
  | star : Regex → Regex

namespace Regex

/-- A literal character. -/
def lit (c : Char) : Regex := cls (fun x => x == c)

/-- A literal word. -/
def word (s : String) : Regex := s.data.foldr (fun c r => seq (lit c) r) eps

/-- The repetition `x+`. -/
def plus (r : Regex) : Regex := seq r (star r)

/-- Whether `r` matches the empty string. -/
def nullable : Regex → Bool
  | none => false
  | eps => true
  | cls _ => false
  | seq r s => nullable r && nullable s
  | alt r s => nullable r || nullable s
  | star _ => true

/-- The derivative of `r` by the character `c`: what is left to match after `c`. -/
def deriv (c : Char) : Regex → Regex
  | none => none
  | eps => none
  | cls p => if p c then eps else none
  | seq r s => if nullable r then alt (seq (deriv c r) s) (deriv c s) else seq (deriv c r) s
  | alt r s => alt (deriv c r) (deriv c s)
  | star r => seq (deriv c r) (star r)

/-- Whether `r` matches some leading part of the characters: a match of `^r`
somewhere in the text, as `MatchString` reports it. -/
def matchesLeading (r : Regex) : List Char → Bool
  | [] => nullable r
  | c :: cs => nullable r || matchesLeading (deriv c r) cs

/-- The strings a pattern matches in full (the language of the pattern). -/
inductive Matches : Regex → List Char → Prop where
  | eps : Matches Regex.eps []
  | cls (p : Char → Bool) (c : Char) : p c = true → Matches (Regex.cls p) [c]
  | seq (r s : Regex) (u v : List Char) :
      Matches r u → Matches s v → Matches (Regex.seq r s) (u ++ v)
  | altL (r s : Regex) (u : List Char) : Matches r u → Matches (Regex.alt r s) u
  | altR (r s : Regex) (u : List Char) : Matches s u → Matches (Regex.alt r s) u
  | starNil (r : Regex) : Matches (Regex.star r) []
  | starCons (r : Regex) (u v : List Char) :
      Matches r u → Matches (Regex.star r) v → Matches (Regex.star r) (u ++ v)

end Regex

namespace Util

/-- The bracket expression `[a-zA-Z0-9_=]`. -/
def wordClass (c : Char) : Bool :=
  (97 ≤ c.toNat && c.toNat ≤ 122) || (65 ≤ c.toNat && c.toNat ≤ 90)
    || (48 ≤ c.toNat && c.toNat ≤ 57) || c == '_' || c == '='

/-- The bracket expression `[a-zA-Z0-9_\-\+\/=]`. -/
def signatureClass (c : Char) : Bool :=
  (97 ≤ c.toNat && c.toNat ≤ 122) || (65 ≤ c.toNat && c.toNat ≤ 90)
    || (48 ≤ c.toNat && c.toNat ≤ 57) || c == '_' || c == '-' || c == '+' || c == '/' || c == '='

/-- The dot of `regexp`: any character but the line feed. -/
def dotClass (c : Char) : Bool := c.toNat != 10

/-- The pattern of `SplitBearer` after its `^`:
`(s|bearer|Bearer).([a-zA-Z0-9_=]+)\.([a-zA-Z0-9_=]+)\.([a-zA-Z0-9_\-\+\/=]*)`. -/
def bearerPattern : Regex :=
  Regex.seq (Regex.alt (Regex.word "s") (Regex.alt (Regex.word "bearer") (Regex.word "Bearer")))
    (Regex.seq (Regex.cls dotClass)
      (Regex.seq (Regex.plus (Regex.cls wordClass))
        (Regex.seq (Regex.lit '.')
          (Regex.seq (Regex.plus (Regex.cls wordClass))
            (Regex.seq (Regex.lit '.')
              (Regex.star (Regex.cls signatureClass)))))))

/-- Go `(*Regexp).MatchString` for a pattern that starts with `^`. -/
def MatchString (re : Regex) (s : String) : Bool := re.matchesLeading s.data

/-- The rule `validation.Required` on a string: it passes on a non-empty value. -/
def Required (value : String) : Bool := value != ""

/-- The rule `validation.Match(re)` on a string: the empty value is valid. -/
def Match (re : Regex) (value : String) : Bool := value == "" || MatchString re value

/-- Whether `sub` occurs in the characters. -/
def containsChars (sub : List Char) : List Char → Bool
  | [] => sub.isPrefixOf []
  | c :: cs => sub.isPrefixOf (c :: cs) || containsChars sub cs

/-- Go `strings.Contains(s, substr)`. -/
def stringsContains (s substr : String) : Bool := containsChars substr.data s.data

/-- Go `strings.TrimPrefix(s, pre)`. -/
def stringsTrimLeading (s pre : String) : String :=
  if pre.data.isPrefixOf s.data then String.mk (s.data.drop pre.data.length) else s

/-- Go `SplitBearer`. -/
def SplitBearer (token : String) : String × Option GoError :=
  if !(Required token && Match bearerPattern token) then
    ("", some "unknown jwt format")
  else
    let bearer : String :=
      if stringsContains token "bearer" then "bearer "
      else if stringsContains token "Bearer" then "Bearer "
      else ""
    let token := stringsTrimLeading token bearer
    if token = "" then ("", some "token is empty")
    else (token, none)

/-- A string of the form `a.b.c` with `a` and `b` non-empty over `[a-zA-Z0-9_=]`
and `c` over `[a-zA-Z0-9_+/=-]`. -/
def isCompactToken (t : String) : Bool :=
  match Handler.splitChars '.' t.data with
  | [a, b, c] => !a.isEmpty && a.all wordClass && !b.isEmpty && b.all wordClass
      && c.all signatureClass
  | _ => false

end Util

/-! ## Concrete surroundings used in the examples below -/

namespace Example

def cfg : MinioCfg :=
  { Endpoint := "localhost:9000", Bucket := "join-app", AccessKey := "minio",
    SecretKey := "minio123", Region := "", Secure := false, Token := "" }

def client : Client :=
  { Endpoint := "localhost:9000", AccessKey := "minio", SecretKey := "minio123",
    Token := "", Secure := false }

def noObject : ObjectInfo := { Key := "", Size := 0, ContentType := "", Err := none }

/-- A store where every call succeeds; the bucket exists and holds nothing. -/
def store : Store :=
  { New := fun _ => none
    MakeBucket := fun _ _ _ _ => none
    FPutObject := fun _ _ _ _ _ _ => none
    BucketExists := fun _ _ _ => (true, none)
    StatObject := fun _ _ _ _ => (noObject, some "The specified key does not exist.")
    ListObjects := fun _ _ _ => []
    ListIncompleteUploads := fun _ _ _ _ => []
    PresignedGetObject := fun c _ bucket object _ _ =>
      (some ("http://" ++ c.Endpoint ++ "/" ++ bucket ++ "/" ++ object ++ "?X-Amz-Expires=1000"),
        none)
    CheckValidBucketName := fun bucketName =>
      if bucketName = "" then some "Bucket name cannot be empty"
      else if bucketName.length < 3 then some "Bucket name cannot be shorter than 3 characters"
      else if bucketName.length > 63 then some "Bucket name cannot be longer than 63 characters"
      else none }

/-- An operating system where every call succeeds. -/
def os : OS :=
  { Getwd := Except.ok "/app"
    Join := fun dir folder filename => dir ++ "/" ++ folder ++ "/" ++ filename
    OpenFile := fun _ => none
    Copy := fun _ => none
    Remove := fun _ => none }

def env : Env :=
  { cfg := cfg, store := store, os := os
    GetFileContentType := fun _ => "text/plain; charset=utf-8"
    ParseRequestModuleMaterial := fun _ => []
    httpGet := fun _ => (some { StatusCode := 404, Header := [("Content-Type", "application/xml")],
                                ReadAll := ([60, 69, 114, 114, 111, 114, 47, 62], none) }, none)
    modulesSvc := fun _ _ _ => none }

def token : JwtToken :=
  { Claims := some [("role_uuid", ClaimValue.str "r-1"), ("user_uuid", ClaimValue.str "u-1")] }

/-- A `POST` upload of `a.txt` in the form field `file`. -/
def upload : Request :=
  { Method := "POST", ctx := "ctx"
    FormValue := fun _ => ""
    ParseMultipartForm := fun _ => none
    FormFile := fun key => if key = "file" then Except.ok "a.txt" else Except.error "http: no such file"
    Query := fun _ => ""
    user_data := some token }

/-- A download request for `object_name=a.txt`. -/
def download : Request :=
  { Method := "GET", ctx := "ctx"
    FormValue := fun _ => ""
    ParseMultipartForm := fun _ => none
    FormFile := fun _ => Except.error "http: no such file"
    Query := fun key => if key = "object_name" then "a.txt" else ""
    user_data := some token }

/-- A download request without `object_name`. -/
def emptyDownload : Request := { download with Query := fun _ => "" }

def w0 : World := { fs := [], trace := [] }

/-- The session `ParseFileUpload` builds before `MakeBucket()`. -/
def session : MinioImpl :=
  { Client := client, Bucket := "join-app", Location := "", ctx := some "ctx" }

/-- As `store`, but bucket creation is refused for lack of permission. -/
def deniedStore : Store :=
  { store with MakeBucket := fun _ _ _ _ => some "Access Denied." }

def deniedEnv : Env := { env with store := deniedStore }

/-- As `upload`, but the multipart parse step fails. -/
def oversized : Request :=
  { upload with ParseMultipartForm := fun _ => some "multipart: message too large" }

/-- The object `a.txt` as stored: ten bytes of text. -/
def textObject : ObjectInfo :=
  { Key := "a.txt", Size := 10, ContentType := "text/plain", Err := none }

/-- As `env`, but the bucket holds `a.txt` and the presigned URL resolves to its
ten bytes, served as `text/plain`. -/
def textEnv : Env :=
  { env with
    store := { store with StatObject := fun _ _ _ _ => (textObject, none) }
    httpGet := fun _ => (some { StatusCode := 200, Header := [("Content-Type", "text/plain")],
                                ReadAll := ([48, 49, 50, 51, 52, 53, 54, 55, 56, 57], none) }, none) }

/-- As `env`, but no bucket name is configured. -/
def noBucketEnv : Env := { env with cfg := { cfg with Bucket := "" } }

/-- As `env`, but `io.Copy` into the staging file fails. -/
def copyFailEnv : Env :=
  { env with os := { os with Copy := fun _ => some "write /app/storage/a.txt: no space left on device" } }

/-- As `env`, but the store refuses the upload (`FPutObject` fails). -/
def publishFailEnv : Env :=
  { env with store := { store with FPutObject := fun _ _ _ _ _ _ => some "connection refused" } }

/-- As `env`, but `os.Remove` of the staging file fails. -/
def removeFailEnv : Env :=
  { env with os := { os with Remove := fun _ => some "remove /app/storage/a.txt: permission denied" } }

end Example

/-! ## Theorems: package `minio` -/

namespace Minio

open Go

/-- What `SignUrl` does, for any answer of the store. -/
theorem SignUrl_run (store : Store) (m : MinioImpl) (objectName : String) (w : World) :
    SignUrl store m objectName w
      = Result.ok (store.PresignedGetObject m.Client m.ctx m.Bucket objectName (1000 * Second) []).1
          { w with trace := w.trace ++
              [Event.StorePresignedGetObject m.ctx m.Bucket objectName (1000 * Second) []] } := by
  simp only [SignUrl, bind, andThen, emit, pure, ret]
  cases (store.PresignedGetObject m.Client m.ctx m.Bucket objectName (1000 * Second) []).2 <;> rfl

/-- C4: on a session with a context and a valid bucket name, when the store
answers "not there, no error" (`exist = false`, `err = nil`), `BucketExist`
makes the one `Client.BucketExists` call and returns `true`, where the contract
asks for `false`. -/
theorem BucketExist_true_on_confirmed_absent (store : Store) (m : MinioImpl) (c : Context)
    (w : World) :
    BucketExist
        { store with
          CheckValidBucketName := fun _ => none
          BucketExists := fun _ _ _ => (false, none) }
        { m with ctx := some c } w
      = Result.ok true
          { w with trace := w.trace ++ [Event.StoreBucketExists (some c) m.Bucket] } := by
  rfl

/-- C10: `SignUrl` makes exactly one call, `Client.PresignedGetObject` on the
session's context and bucket and the given object name with empty request
parameters and an expiry of `1000 * time.Second`, which is 1000 seconds
whatever the inputs; it returns the URL of the client as it is, with or
without an error. -/
theorem SignUrl_presigns_for_1000_seconds (store : Store) (m : MinioImpl) (objectName : String)
    (w : World) :
    SignUrl store m objectName w
      = Result.ok (store.PresignedGetObject m.Client m.ctx m.Bucket objectName (1000 * Second) []).1
          { w with trace := w.trace ++
              [Event.StorePresignedGetObject m.ctx m.Bucket objectName (1000 * Second) []] }
    ∧ (1000 * Second) / Second = 1000 ∧ (1000 * Second) % Second = 0 := by
  exact ⟨SignUrl_run store m objectName w, by decide, by decide⟩

/-- C5 (as stated, refuted): with `Client.MakeBucket` failing with "Access Denied."
(not an already-exists error), `MakeBucket` returns the very session it returns
on success, the chained `UploadObject` gives the same answer, and
`ParseFileUpload` returns the same object path with a nil error. -/
theorem MakeBucket_access_denied_not_surfaced :
    Example.deniedStore.MakeBucket Example.client (some "ctx") "join-app" "" = some "Access Denied."
    ∧ (MakeBucket Example.deniedStore Example.session Example.w0).value? = some Example.session
    ∧ (MakeBucket Example.store Example.session Example.w0).value? = some Example.session
    ∧ ((MakeBucket Example.deniedStore Example.session >>= fun m =>
          UploadObject Example.deniedStore m "modules/files/a.txt" "/app/storage/a.txt"
            "text/plain") Example.w0).value? = some (true, none)
    ∧ ((MakeBucket Example.store Example.session >>= fun m =>
          UploadObject Example.store m "modules/files/a.txt" "/app/storage/a.txt"
            "text/plain") Example.w0).value? = some (true, none)
    ∧ (Handler.ParseFileUpload Example.deniedEnv Example.upload "file" "storage"
          Example.w0).value? = some ("modules/files/a.txt", none)
    ∧ (Handler.ParseFileUpload Example.env Example.upload "file" "storage"
          Example.w0).value? = some ("modules/files/a.txt", none) := by
  refine ⟨rfl, rfl, rfl, rfl, rfl, rfl, rfl⟩

/-- C5 (amended): whatever `Client.MakeBucket` answers, `MakeBucket` makes that one
call, writes one line (the error with `fmt.Println`, or the success message
with `log.Printf`) and returns its receiver unchanged, so a chained call runs
on the same session either way. -/
theorem MakeBucket_returns_receiver (store : Store) (m : MinioImpl) (w : World) :
    MakeBucket store m w
      = Result.ok m { w with trace := w.trace ++
          [Event.StoreMakeBucket m.ctx m.Bucket m.Location,
           match store.MakeBucket m.Client m.ctx m.Bucket m.Location with
           | some err => Event.Println err
           | none => Event.LogPrintf ("Successfully created " ++ m.Bucket ++ "\n")] } := by
  cases h : store.MakeBucket m.Client m.ctx m.Bucket m.Location <;>
    simp [MakeBucket, bind, andThen, emit, pure, ret, h]

/-- C6: on a listing whose first entry carries no error, `ListObjects` (called
with a context) and `ListIncompleteUploads` do not return: the first
`response[...] = ...` writes into the nil map and panics. -/
theorem list_calls_panic_on_first_entry (store : Store) (m : MinioImpl) (c : Context)
    (w : World) (o : ObjectInfo) (rest : List ObjectInfo)
    (u : ObjectMultipartInfo) (rest2 : List ObjectMultipartInfo)
    (pfx : String) (isRecursive : Bool) :
    ListObjects { store with ListObjects := fun _ _ _ => { o with Err := none } :: rest }
        { m with ctx := some c } w
      = Result.panic "assignment to entry in nil map"
          { w with trace := w.trace ++ [Event.StoreListObjects (some c) m.Bucket] }
    ∧ ListIncompleteUploads
        { store with ListIncompleteUploads := fun _ _ _ _ => { u with Err := none } :: rest2 }
        m pfx isRecursive w
      = Result.panic "assignment to entry in nil map"
          { w with trace := w.trace ++
              [Event.StoreListIncompleteUploads m.Bucket pfx isRecursive] } := by
  exact ⟨rfl, rfl⟩

end Minio

/-! ## Theorems: package `handler` -/

namespace Handler

open Go Minio

/-- C1: when `io.Copy` into the staging file fails, `ParseFileUpload` returns the
error without any `os.Remove`: the staging path `/app/storage/a.txt`, created by
`os.OpenFile`, still exists on return. -/
theorem ParseFileUpload_copy_failure_leaves_staging_file :
    ParseFileUpload Example.copyFailEnv Example.upload "file" "storage" Example.w0
      = Result.ok ("", some "write /app/storage/a.txt: no space left on device")
          { fs := ["/app/storage/a.txt"]
            trace := [Event.ParseMultipartForm 1024, Event.FormFile "file", Event.Getwd,
              Event.OpenFile "/app/storage/a.txt", Event.Copy "/app/storage/a.txt",
              Event.CloseTarget "/app/storage/a.txt", Event.CloseUploaded] } := by
  rfl

/-- C2: when `FPutObject` fails with "connection refused" and the removal of the
staging file succeeds, `ParseFileUpload` prints the publish error and returns
the object path with a nil error; `CreateModules` goes on to the modules
service and answers with the created status. -/
theorem ParseFileUpload_publish_failure_returns_nil :
    (ParseFileUpload Example.publishFailEnv Example.upload "file" "storage" Example.w0).value?
      = some ("modules/files/a.txt", none)
    ∧ Event.Println "upload to minio error: connection refused"
        ∈ (ParseFileUpload Example.publishFailEnv Example.upload "file" "storage"
            Example.w0).world.trace
    ∧ (CreateModules Example.publishFailEnv Example.upload Example.w0).world.trace.getLast?
      = some (Event.Send [RespCall.APIStatusCreated]) := by
  refine ⟨rfl, by decide, rfl⟩

/-- C3: when the publish succeeds and `os.Remove` of the staging file fails,
`ParseFileUpload` returns the removal error, and `CreateModules` answers with
the bad-request error although the object was stored. -/
theorem ParseFileUpload_remove_failure_is_returned :
    Example.removeFailEnv.store.FPutObject Example.client (some "ctx") "join-app"
        "modules/files/a.txt" "/app/storage/a.txt" "text/plain; charset=utf-8" = none
    ∧ (ParseFileUpload Example.removeFailEnv Example.upload "file" "storage" Example.w0).value?
      = some ("modules/files/a.txt", some "remove /app/storage/a.txt: permission denied")
    ∧ (CreateModules Example.removeFailEnv Example.upload Example.w0).world.trace.getLast?
      = some (Event.Send [RespCall.SetError ErrBadRequest]) := by
  refine ⟨rfl, rfl, rfl⟩

/-- C8: when `r.ParseMultipartForm(1024)` fails, `ParseFileUpload` returns the empty
filename with that error having made no other call (no staging file is opened,
the file system is unchanged, the store is not contacted); `CreateModules`,
which reaches the parse step on a `POST`, then only sends the bad-request error
and does not call the modules service. -/
theorem ParseFileUpload_parse_failure (env : Env) (r : Request) (keyFormFile folder : String)
    (w : World) (err : GoError) (hparse : r.ParseMultipartForm 1024 = some err) :
    ParseFileUpload env r keyFormFile folder w
      = Result.ok ("", some err) { w with trace := w.trace ++ [Event.ParseMultipartForm 1024] }
    ∧ (r.Method = MethodPost →
        CreateModules env r w
          = Result.ok () { w with trace := w.trace ++
              [Event.ParseMultipartForm 1024, Event.Send [RespCall.SetError ErrBadRequest]] }) := by
  have h1 : ParseFileUpload env r keyFormFile folder w
      = Result.ok ("", some err) { w with trace := w.trace ++ [Event.ParseMultipartForm 1024] } := by
    simp [ParseFileUpload, bind, andThen, emit, pure, ret, hparse]
  refine ⟨h1, ?_⟩
  intro hm
  have h2 : ParseFileUpload env r "file" "storage" w
      = Result.ok ("", some err) { w with trace := w.trace ++ [Event.ParseMultipartForm 1024] } := by
    simp [ParseFileUpload, bind, andThen, emit, pure, ret, hparse]
  simp [CreateModules, bind, andThen, emit, h2, hm, NewJSONResponse]

/-- C8 at a concrete oversized upload. -/
theorem ParseFileUpload_parse_failure_witness :
    ParseFileUpload Example.env Example.oversized "file" "storage" Example.w0
      = Result.ok ("", some "multipart: message too large")
          { fs := [], trace := [Event.ParseMultipartForm 1024] }
    ∧ CreateModules Example.env Example.oversized Example.w0
      = Result.ok () { fs := [], trace :=
          [Event.ParseMultipartForm 1024, Event.Send [RespCall.SetError ErrBadRequest]] } :=
  ⟨(ParseFileUpload_parse_failure Example.env Example.oversized "file" "storage" Example.w0
      "multipart: message too large" rfl).1,
   (ParseFileUpload_parse_failure Example.env Example.oversized "file" "storage" Example.w0
      "multipart: message too large" rfl).2 rfl⟩

/-- Every run of `DownloadFromStorage`.  The session of the bucket check is built
without `WithContext`, so the run ends at `BucketExist`: the process exits when
`minio.New` fails; "Bucket not found" is sent when the client refuses the bucket
name; otherwise the client panics on the nil context.  The bad-request response
comes first when `object_name` is empty. -/
theorem DownloadFromStorage_run (env : Env) (r : Request) (w : World) :
    DownloadFromStorage env r w
      = match env.store.New (clientOf env.cfg) with
        | some err =>
          Result.fatal err { w with trace := w.trace ++
            (if r.Query "object_name" = "" then
              [Event.Send [RespCall.APIStatusBadRequest,
                RespCall.SetMessage "param object_name is required"]] else [])
            ++ [Event.MinioNew (clientOf env.cfg)] }
        | none =>
          match env.store.CheckValidBucketName env.cfg.Bucket with
          | some _ =>
            Result.ok () { w with trace := w.trace ++
              (if r.Query "object_name" = "" then
                [Event.Send [RespCall.APIStatusBadRequest,
                  RespCall.SetMessage "param object_name is required"]] else [])
              ++ [Event.MinioNew (clientOf env.cfg),
                  Event.StoreBucketExists none env.cfg.Bucket,
                  Event.Send ((if r.Query "object_name" = "" then
                      [RespCall.APIStatusBadRequest,
                        RespCall.SetMessage "param object_name is required"] else [])
                    ++ [RespCall.APIStatusNotFound, RespCall.SetMessage "Bucket not found"])] }
          | none =>
            Result.panic "cannot create context from nil parent" { w with trace := w.trace ++
              (if r.Query "object_name" = "" then
                [Event.Send [RespCall.APIStatusBadRequest,
                  RespCall.SetMessage "param object_name is required"]] else [])
              ++ [Event.MinioNew (clientOf env.cfg),
                  Event.StoreBucketExists none env.cfg.Bucket] } := by
  by_cases hname : r.Query "object_name" = "" <;>
    cases hnew : env.store.New (clientOf env.cfg) <;>
    cases hvalid : env.store.CheckValidBucketName env.cfg.Bucket <;>
    simp [DownloadFromStorage, NewMinio, BucketExist, clientBucketExists, SetBucket, bind,
      andThen, emit, pure, ret, throwPanic, logFatalln, hname, hnew, hvalid, NewJSONResponse]

/-- C7 (as stated, refuted): the bucket `join-app` has a valid name and holds no
object `a.txt` (`StatObject` reports that the key does not exist), and
`DownloadFromStorage` produces no not-found response: its bucket check runs on
a session without a context and panics inside the client. -/
theorem DownloadFromStorage_absent_object_no_not_found :
    (Example.env.store.StatObject Example.client (some "ctx") "join-app" "a.txt").2
      = some "The specified key does not exist."
    ∧ Example.env.store.CheckValidBucketName "join-app" = none
    ∧ DownloadFromStorage Example.env Example.download Example.w0
      = Result.panic "cannot create context from nil parent"
          { fs := []
            trace := [Event.MinioNew Example.client,
              Event.StoreBucketExists none "join-app"] } := by
  exact ⟨rfl, rfl, rfl⟩

/-- C7 (amended): for a non-empty `object_name` (the client being constructed),
whenever the bucket check `BucketExist` of `DownloadFromStorage` returns false,
the handler sends the not-found response "Bucket not found" and returns, having
made no `SignUrl` call; whether the object is present is never looked at. -/
theorem DownloadFromStorage_not_found_by_bucket_check (env : Env) (r : Request) (w : World)
    (hnew : env.store.New (clientOf env.cfg) = none) (hname : r.Query "object_name" ≠ "")
    (hb : (BucketExist env.store
        (SetBucket { Client := clientOf env.cfg, Bucket := "", Location := "", ctx := none }
          env.cfg.Bucket) w).value? = some false) :
    DownloadFromStorage env r w
      = Result.ok () { w with trace := w.trace ++
          [Event.MinioNew (clientOf env.cfg), Event.StoreBucketExists none env.cfg.Bucket,
           Event.Send [RespCall.APIStatusNotFound, RespCall.SetMessage "Bucket not found"]] } := by
  rw [DownloadFromStorage_run]
  cases hvalid : env.store.CheckValidBucketName env.cfg.Bucket
  · simp [BucketExist, clientBucketExists, SetBucket, bind, andThen, emit, throwPanic, hvalid,
      Result.value?] at hb
  · simp [hnew, hname]

/-- C7 (amended) where no bucket name is configured: the client refuses the empty
name, `BucketExist` returns false and "Bucket not found" is sent. -/
theorem DownloadFromStorage_not_found_by_bucket_check_witness :
    DownloadFromStorage Example.noBucketEnv Example.download Example.w0
      = Result.ok ()
          { fs := []
            trace := [Event.MinioNew Example.client, Event.StoreBucketExists none "",
              Event.Send [RespCall.APIStatusNotFound, RespCall.SetMessage "Bucket not found"]] } :=
  DownloadFromStorage_not_found_by_bucket_check Example.noBucketEnv Example.download
    Example.w0 rfl (by decide) rfl

/-- C9: `DownloadFromStorage` never assigns a Content-Type: whatever the store,
the request and the fetched response, it writes no status, no header and no
body to the response.  At the download of `a.txt`, stored as `text/plain` in the
bucket `join-app`, the bucket check runs on a session without a context and
panics inside the client, before anything is relayed. -/
theorem DownloadFromStorage_assigns_no_content_type (env : Env) (r : Request) (w : World) :
    (∃ evs, (DownloadFromStorage env r w).world.trace = w.trace ++ evs
      ∧ (∀ key value, Event.HeaderSet key value ∉ evs)
      ∧ (∀ code, Event.WriteHeader code ∉ evs)
      ∧ (∀ data, Event.Write data ∉ evs))
    ∧ (Example.textEnv.store.StatObject Example.client (some "ctx") "join-app"
        "a.txt").1.ContentType = "text/plain"
    ∧ DownloadFromStorage Example.textEnv Example.download Example.w0
      = Result.panic "cannot create context from nil parent"
          { fs := []
            trace := [Event.MinioNew Example.client,
              Event.StoreBucketExists none "join-app"] } := by
  refine ⟨?_, rfl, rfl⟩
  rw [DownloadFromStorage_run]
  by_cases hname : r.Query "object_name" = "" <;>
    cases hnew : env.store.New (clientOf env.cfg) <;>
    cases hvalid : env.store.CheckValidBucketName env.cfg.Bucket <;>
    simp [hname, Result.world]

/-- C11: with an empty `object_name`, `DownloadFromStorage` sends the bad-request
response and, there being no `return` after it, goes on: it builds the store
client and calls `BucketExist`, on a session without a context.  With a valid
bucket name that call panics inside the client; with a name the client refuses
it returns false and a second response, "Bucket not found", is sent. -/
theorem DownloadFromStorage_empty_name_goes_on (env : Env) (r : Request) (w : World) :
    DownloadFromStorage env { r with Query := fun _ => "" } w
      = (match env.store.New (clientOf env.cfg) with
        | some err =>
          Result.fatal err { w with trace := w.trace ++
            [Event.Send [RespCall.APIStatusBadRequest,
               RespCall.SetMessage "param object_name is required"],
             Event.MinioNew (clientOf env.cfg)] }
        | none =>
          match env.store.CheckValidBucketName env.cfg.Bucket with
          | some _ =>
            Result.ok () { w with trace := w.trace ++
              [Event.Send [RespCall.APIStatusBadRequest,
                 RespCall.SetMessage "param object_name is required"],
               Event.MinioNew (clientOf env.cfg),
               Event.StoreBucketExists none env.cfg.Bucket,
               Event.Send [RespCall.APIStatusBadRequest,
                 RespCall.SetMessage "param object_name is required",
                 RespCall.APIStatusNotFound, RespCall.SetMessage "Bucket not found"]] }
          | none =>
            Result.panic "cannot create context from nil parent" { w with trace := w.trace ++
              [Event.Send [RespCall.APIStatusBadRequest,
                 RespCall.SetMessage "param object_name is required"],
               Event.MinioNew (clientOf env.cfg),
               Event.StoreBucketExists none env.cfg.Bucket] })
    ∧ DownloadFromStorage Example.env Example.emptyDownload Example.w0
      = Result.panic "cannot create context from nil parent"
          { fs := []
            trace := [Event.Send [RespCall.APIStatusBadRequest,
                RespCall.SetMessage "param object_name is required"],
              Event.MinioNew Example.client,
              Event.StoreBucketExists none "join-app"] } := by
  refine ⟨?_, rfl⟩
  rw [DownloadFromStorage_run]
  cases hnew : env.store.New (clientOf env.cfg) <;>
    cases hvalid : env.store.CheckValidBucketName env.cfg.Bucket <;>
    simp

end Handler

/-! ## Theorems: matching with derivatives -/

namespace Regex

/-- A pattern that matches the empty string is nullable. -/
theorem nullable_of_matches {r : Regex} {w : List Char} (h : Matches r w) (hw : w = []) :
    nullable r = true := by
  induction h with
  | eps => rfl
  | cls p c hp => simp at hw
  | seq r s u v _ _ ihu ihv =>
    simp only [List.append_eq_nil] at hw
    simp [nullable, ihu hw.1, ihv hw.2]
  | altL r s u _ ih => simp [nullable, ih hw]
  | altR r s u _ ih => simp [nullable, ih hw]
  | starNil r => rfl
  | starCons r u v _ _ _ _ => rfl

/-- The derivative by `c` matches what a match starting with `c` goes on with. -/
theorem matches_deriv {r : Regex} {w : List Char} (h : Matches r w) (c : Char)
    (t : List Char) (hw : w = c :: t) : Matches (deriv c r) t := by
  induction h generalizing t with
  | eps => simp at hw
  | cls p d hp =>
    simp only [List.cons.injEq] at hw
    obtain ⟨hd, ht⟩ := hw
    subst hd
    subst ht
    simp only [deriv, hp, if_true]
    exact Matches.eps
  | seq r s u v hu hv ihu ihv =>
    cases u with
    | nil =>
      have hn : nullable r = true := nullable_of_matches hu rfl
      simp only [List.nil_append] at hw
      simp only [deriv, hn, if_true]
      exact Matches.altR _ _ _ (ihv t hw)
    | cons d u1 =>
      simp only [List.cons_append, List.cons.injEq] at hw
      obtain ⟨hd, ht⟩ := hw
      subst hd
      subst ht
      have h1 : Matches (Regex.seq (deriv d r) s) (u1 ++ v) :=
        Matches.seq _ _ _ _ (ihu u1 rfl) hv
      by_cases hn : nullable r = true
      · simp only [deriv, hn, if_true]
        exact Matches.altL _ _ _ h1
      · simp only [deriv, hn]
        exact h1
  | altL r s u _ ih => exact Matches.altL _ _ _ (ih t hw)
  | altR r s u _ ih => exact Matches.altR _ _ _ (ih t hw)
  | starNil r => simp at hw
  | starCons r u v hu hv ihu ihv =>
    cases u with
    | nil =>
      simp only [List.nil_append] at hw
      exact ihv t hw
    | cons d u1 =>
      simp only [List.cons_append, List.cons.injEq] at hw
      obtain ⟨hd, ht⟩ := hw
      subst hd
      subst ht
      simp only [deriv]
      exact Matches.seq _ _ _ _ (ihu u1 rfl) hv

/-- A text that starts with a match of the pattern is accepted. -/
theorem matchesLeading_of_matches (p q : List Char) :
    ∀ r : Regex, Matches r p → matchesLeading r (p ++ q) = true := by
  induction p with
  | nil =>
    intro r h
    have hn : nullable r = true := nullable_of_matches h rfl
    cases q <;> simp [matchesLeading, hn]
  | cons c p1 ih =>
    intro r h
    simp only [List.cons_append, matchesLeading, Bool.or_eq_true]
    exact Or.inr (ih _ (matches_deriv h c p1 rfl))

/-- A literal word matches its own characters. -/
theorem matches_word_chars (l : List Char) :
    Matches (l.foldr (fun c r => Regex.seq (lit c) r) Regex.eps) l := by
  induction l with
  | nil => exact Matches.eps
  | cons c l1 ih =>
    exact Matches.seq _ _ [c] l1 (Matches.cls _ c (by simp)) ih

/-- The repetition of a class matches every run of characters of the class. -/
theorem matches_star_cls (p : Char → Bool) (l : List Char) (h : l.all p = true) :
    Matches (Regex.star (Regex.cls p)) l := by
  induction l with
  | nil => exact Matches.starNil _
  | cons c l1 ih =>
    simp only [List.all_cons, Bool.and_eq_true] at h
    exact Matches.starCons _ [c] l1 (Matches.cls _ c h.1) (ih h.2)

/-- The pattern `[...]+` matches every non-empty run of characters of the class. -/
theorem matches_plus_cls (p : Char → Bool) (l : List Char) (hne : l ≠ [])
    (h : l.all p = true) : Matches (plus (Regex.cls p)) l := by
  cases l with
  | nil => exact absurd rfl hne
  | cons c l1 =>
    simp only [List.all_cons, Bool.and_eq_true] at h
    exact Matches.seq _ _ [c] l1 (Matches.cls _ c h.1) (matches_star_cls p l1 h.2)

end Regex

/-! ## Theorems: package `util` -/

namespace Util

/-- When `strings.TrimPrefix` leaves nothing, the string was empty or was the
leading part itself. -/
theorem stringsTrimLeading_eq_empty (s pre : String) (h : stringsTrimLeading s pre = "") :
    s = "" ∨ s = pre := by
  unfold stringsTrimLeading at h
  split at h
  · rename_i hp
    right
    obtain ⟨rest, hrest⟩ := List.isPrefixOf_iff_prefix.mp hp
    have hd : s.data.drop pre.data.length = [] := by
      have := congrArg String.data h
      simpa using this
    rw [← hrest] at hd
    simp at hd
    subst hd
    simp at hrest
    exact (String.ext hrest).symm
  · left
    exact h

/-- Whatever the input, `SplitBearer` either rejects its format or returns a
non-empty token with a nil error: the "token is empty" answer is never given. -/
theorem SplitBearer_rejects_or_returns_token (token : String) :
    SplitBearer token = ("", some "unknown jwt format")
      ∨ ((SplitBearer token).2 = none ∧ (SplitBearer token).1 ≠ "") := by
  by_cases hv : (Required token && Match bearerPattern token) = true
  · right
    have hne : token ≠ "" := by
      intro h
      subst h
      revert hv
      decide
    have hkey : ∀ pre : String, (pre = "bearer " ∨ pre = "Bearer " ∨ pre = "") →
        stringsTrimLeading token pre ≠ "" := by
      intro pre hpre ht
      rcases stringsTrimLeading_eq_empty token pre ht with h | h
      · exact hne h
      · rcases hpre with rfl | rfl | rfl
        · subst h
          revert hv
          decide
        · subst h
          revert hv
          decide
        · exact hne h
    by_cases h1 : stringsContains token "bearer" = true
    · have := hkey "bearer " (Or.inl rfl)
      simp [SplitBearer, hv, h1, this]
    · by_cases h2 : stringsContains token "Bearer" = true
      · have := hkey "Bearer " (Or.inr (Or.inl rfl))
        simp [SplitBearer, hv, h1, h2, this]
      · have := hkey "" (Or.inr (Or.inr rfl))
        simp [SplitBearer, hv, h1, h2, this]
  · left
    simp [SplitBearer, hv]

/-- C12: `bearer.b.c` has the form `a.b.c`, yet `SplitBearer` returns
`Bearer bearer.b.c` whole, scheme included, with a nil error: the token contains
`bearer`, so `"bearer "` is what `strings.TrimPrefix` is asked to remove, and the
input does not start with it.  After the lower-case scheme the same token comes
back stripped, and no input is ever answered with "token is empty". -/
theorem SplitBearer_keeps_scheme_before_bearer_token :
    isCompactToken "bearer.b.c" = true
    ∧ SplitBearer ("Bearer " ++ "bearer.b.c") = ("Bearer bearer.b.c", none)
    ∧ SplitBearer ("bearer " ++ "bearer.b.c") = ("bearer.b.c", none)
    ∧ ∀ token : String, SplitBearer token = ("", some "unknown jwt format")
        ∨ ((SplitBearer token).2 = none ∧ (SplitBearer token).1 ≠ "") := by
  exact ⟨rfl, rfl, rfl, SplitBearer_rejects_or_returns_token⟩

/-- The pattern matches a scheme word, one separating blank and a token `a.b.c`. -/
theorem matches_bearerPattern (scheme a b c : List Char)
    (hs : scheme = "bearer".data ∨ scheme = "Bearer".data)
    (ha : a ≠ []) (haw : a.all wordClass = true) (hb : b ≠ []) (hbw : b.all wordClass = true)
    (hc : c.all signatureClass = true) :
    Regex.Matches bearerPattern
      (scheme ++ ([' '] ++ (a ++ (['.'] ++ (b ++ (['.'] ++ c)))))) := by
  unfold bearerPattern
  refine Regex.Matches.seq _ _ _ _ ?_ (Regex.Matches.seq _ _ _ _ (Regex.Matches.cls _ _ (by decide))
    (Regex.Matches.seq _ _ _ _ (Regex.matches_plus_cls _ a ha haw)
      (Regex.Matches.seq _ _ _ _ (Regex.Matches.cls _ _ (by simp [Regex.lit]))
        (Regex.Matches.seq _ _ _ _ (Regex.matches_plus_cls _ b hb hbw)
          (Regex.Matches.seq _ _ _ _ (Regex.Matches.cls _ _ (by simp [Regex.lit]))
            (Regex.matches_star_cls _ c hc))))))
  rcases hs with rfl | rfl
  · exact Regex.Matches.altR _ _ _ (Regex.Matches.altL _ _ _ (Regex.matches_word_chars _))
  · exact Regex.Matches.altR _ _ _ (Regex.Matches.altR _ _ _ (Regex.matches_word_chars _))

/-- A string of at least one character is not the empty string. -/
theorem mk_ne_empty (l : List Char) (h : l ≠ []) : String.mk l ≠ "" := by
  intro h1
  exact h (congrArg String.data h1)

/-- A text that starts with `sub` contains it. -/
theorem containsChars_of_leading (sub l : List Char) (h : sub.isPrefixOf l = true) :
    containsChars sub l = true := by
  cases l with
  | nil => simpa [containsChars] using h
  | cons c cs => simp [containsChars, h]

/-- Trimming `pre` from a text that starts with it leaves the rest. -/
theorem stringsTrimLeading_append (pre t : List Char) :
    stringsTrimLeading (String.mk (pre ++ t)) (String.mk pre) = String.mk t := by
  have hp : pre.isPrefixOf (pre ++ t) = true :=
    List.isPrefixOf_iff_prefix.mpr (List.prefix_append pre t)
  simp [stringsTrimLeading, hp]

/-- What `SplitBearer` returns once the checks pass, by the part that is trimmed. -/
theorem SplitBearer_of_valid (token : String) (hreq : Required token = true)
    (hmatch : Match bearerPattern token = true) :
    SplitBearer token
      = if stringsTrimLeading token
            (if stringsContains token "bearer" then "bearer "
             else if stringsContains token "Bearer" then "Bearer " else "") = ""
        then ("", some "token is empty")
        else (stringsTrimLeading token
            (if stringsContains token "bearer" then "bearer "
             else if stringsContains token "Bearer" then "Bearer " else ""), none) := by
  simp [SplitBearer, hreq, hmatch]

/-- After the lower-case scheme, every token of the form `a.b.c` is returned as
it is, with a nil error. -/
theorem SplitBearer_lower_scheme (a b c : List Char)
    (ha : a ≠ []) (haw : a.all wordClass = true) (hb : b ≠ []) (hbw : b.all wordClass = true)
    (hc : c.all signatureClass = true) :
    SplitBearer (String.mk ("bearer ".data ++ (a ++ '.' :: (b ++ '.' :: c))))
      = (String.mk (a ++ '.' :: (b ++ '.' :: c)), none) := by
  have hm := Regex.matchesLeading_of_matches _ []
    bearerPattern (matches_bearerPattern _ a b c (Or.inl rfl) ha haw hb hbw hc)
  have hl : "bearer".data ++ ([' '] ++ (a ++ (['.'] ++ (b ++ (['.'] ++ c))))) ++ []
      = "bearer ".data ++ (a ++ '.' :: (b ++ '.' :: c)) := by
    simp
  rw [hl] at hm
  have hreq : Required (String.mk ("bearer ".data ++ (a ++ '.' :: (b ++ '.' :: c)))) = true := by
    have := mk_ne_empty ("bearer ".data ++ (a ++ '.' :: (b ++ '.' :: c))) (by simp)
    simpa [Required] using this
  have hmatch : Match bearerPattern
      (String.mk ("bearer ".data ++ (a ++ '.' :: (b ++ '.' :: c)))) = true := by
    simp only [Match, MatchString, hm, Bool.or_true]
  have hcont : stringsContains
      (String.mk ("bearer ".data ++ (a ++ '.' :: (b ++ '.' :: c)))) "bearer" = true :=
    containsChars_of_leading _ _ (by simp)
  have htrim := stringsTrimLeading_append "bearer ".data (a ++ '.' :: (b ++ '.' :: c))
  have hne := mk_ne_empty (a ++ '.' :: (b ++ '.' :: c)) (by simp)
  rw [SplitBearer_of_valid _ hreq hmatch]
  simp only [hcont, if_true]
  rw [show ("bearer " : String) = String.mk "bearer ".data from rfl, htrim]
  simp [hne]

/-- The word `bearer` occurs in `Bearer ` followed by `t` only inside `t`. -/
theorem containsChars_bearer_after_upper (t : List Char) :
    containsChars "bearer".data ("Bearer ".data ++ t) = containsChars "bearer".data t := by
  have e : "Bearer ".data ++ t = 'B' :: 'e' :: 'a' :: 'r' :: 'e' :: 'r' :: ' ' :: t := rfl
  have e2 : "bearer".data = ['b', 'e', 'a', 'r', 'e', 'r'] := rfl
  rw [e, e2]
  simp [containsChars, List.isPrefixOf]

/-- After the upper-case scheme, a token of the form `a.b.c` in which `bearer`
does not occur is returned as it is, with a nil error. -/
theorem SplitBearer_upper_scheme (a b c : List Char)
    (ha : a ≠ []) (haw : a.all wordClass = true) (hb : b ≠ []) (hbw : b.all wordClass = true)
    (hc : c.all signatureClass = true)
    (hfree : containsChars "bearer".data (a ++ '.' :: (b ++ '.' :: c)) = false) :
    SplitBearer (String.mk ("Bearer ".data ++ (a ++ '.' :: (b ++ '.' :: c))))
      = (String.mk (a ++ '.' :: (b ++ '.' :: c)), none) := by
  have hm := Regex.matchesLeading_of_matches _ []
    bearerPattern (matches_bearerPattern _ a b c (Or.inr rfl) ha haw hb hbw hc)
  have hl : "Bearer".data ++ ([' '] ++ (a ++ (['.'] ++ (b ++ (['.'] ++ c))))) ++ []
      = "Bearer ".data ++ (a ++ '.' :: (b ++ '.' :: c)) := by
    simp
  rw [hl] at hm
  have hreq : Required (String.mk ("Bearer ".data ++ (a ++ '.' :: (b ++ '.' :: c)))) = true := by
    have := mk_ne_empty ("Bearer ".data ++ (a ++ '.' :: (b ++ '.' :: c))) (by simp)
    simpa [Required] using this
  have hmatch : Match bearerPattern
      (String.mk ("Bearer ".data ++ (a ++ '.' :: (b ++ '.' :: c)))) = true := by
    simp only [Match, MatchString, hm, Bool.or_true]
  have hlow : stringsContains
      (String.mk ("Bearer ".data ++ (a ++ '.' :: (b ++ '.' :: c)))) "bearer" = false := by
    unfold stringsContains
    rw [containsChars_bearer_after_upper]
    exact hfree
  have hcont : stringsContains
      (String.mk ("Bearer ".data ++ (a ++ '.' :: (b ++ '.' :: c)))) "Bearer" = true :=
    containsChars_of_leading _ _ (by simp)
  have htrim := stringsTrimLeading_append "Bearer ".data (a ++ '.' :: (b ++ '.' :: c))
  have hne := mk_ne_empty (a ++ '.' :: (b ++ '.' :: c)) (by simp)
  rw [SplitBearer_of_valid _ hreq hmatch]
  simp only [hlow, hcont, if_true, Bool.false_eq_true, if_false]
  rw [show ("Bearer " : String) = String.mk "Bearer ".data from rfl, htrim]
  simp [hne]

/-- After the upper-case scheme, a token of the form `a.b.c` in which `bearer`
occurs is not stripped: the whole input comes back, with a nil error. -/
theorem SplitBearer_upper_scheme_kept (a b c : List Char)
    (ha : a ≠ []) (haw : a.all wordClass = true) (hb : b ≠ []) (hbw : b.all wordClass = true)
    (hc : c.all signatureClass = true)
    (hocc : containsChars "bearer".data (a ++ '.' :: (b ++ '.' :: c)) = true) :
    SplitBearer (String.mk ("Bearer ".data ++ (a ++ '.' :: (b ++ '.' :: c))))
      = (String.mk ("Bearer ".data ++ (a ++ '.' :: (b ++ '.' :: c))), none) := by
  have hm := Regex.matchesLeading_of_matches _ []
    bearerPattern (matches_bearerPattern _ a b c (Or.inr rfl) ha haw hb hbw hc)
  have hl : "Bearer".data ++ ([' '] ++ (a ++ (['.'] ++ (b ++ (['.'] ++ c))))) ++ []
      = "Bearer ".data ++ (a ++ '.' :: (b ++ '.' :: c)) := by
    simp
  rw [hl] at hm
  have hne := mk_ne_empty ("Bearer ".data ++ (a ++ '.' :: (b ++ '.' :: c))) (by simp)
  have hreq : Required (String.mk ("Bearer ".data ++ (a ++ '.' :: (b ++ '.' :: c)))) = true := by
    simpa [Required] using hne
  have hmatch : Match bearerPattern
      (String.mk ("Bearer ".data ++ (a ++ '.' :: (b ++ '.' :: c)))) = true := by
    simp only [Match, MatchString, hm, Bool.or_true]
  have hlow : stringsContains
      (String.mk ("Bearer ".data ++ (a ++ '.' :: (b ++ '.' :: c)))) "bearer" = true := by
    unfold stringsContains
    rw [containsChars_bearer_after_upper]
    exact hocc
  have htrim : stringsTrimLeading
      (String.mk ("Bearer ".data ++ (a ++ '.' :: (b ++ '.' :: c)))) "bearer "
      = String.mk ("Bearer ".data ++ (a ++ '.' :: (b ++ '.' :: c))) := by
    have e : "Bearer ".data ++ (a ++ '.' :: (b ++ '.' :: c))
        = 'B' :: ("earer ".data ++ (a ++ '.' :: (b ++ '.' :: c))) := rfl
    have e2 : "bearer ".data = 'b' :: "earer ".data := rfl
    simp [stringsTrimLeading, e, e2, List.isPrefixOf]
  rw [SplitBearer_of_valid _ hreq hmatch]
  simp only [hlow, if_true]
  rw [htrim, if_neg hne]

end Util

end JoinApp
